import Mathlib

/-! # xopen: transparent opening of possibly compressed files

A shallow embedding of `xopen.go` (package `xopen`) and the properties of its
`Open` function, of the four format helpers and of `readerCloser.Close`.

The embedding has three layers:

* the regular expression `pattern` and Go's leftmost-first matching
  (`regexp.FindStringSubmatch`), as a backtracking matcher over the operators
  the pattern is built from;
* the collaborators (`os.Open`, `os.Stdin`, the four decoders, `errors.Join`,
  `io.NopCloser`) as oracles over an append-only trace of effects;
* the source functions themselves, with the mutual recursion between `Open`
  and the helpers bounded by a call-depth budget.

Identifiers are Lean strings, that is sequences of Unicode code points; `regexp`
works rune by rune, and `.` stands for every rune but the line feed. Reading is
observed as a whole: what reading a stream to end-of-stream yields. A call with
results `(io.ReadCloser, error)` returns both values: the stream value may be the
nil interface, a nil `*os.File` boxed in the interface, or a usable stream.
-/

namespace Xopen

/-! ## Go's `regexp`: the operators used by `pattern` -/

/-- Single-rune operands: a literal rune, or `.` without the `s` flag. -/
inductive CharClass where
  | lit (c : Char)
  | anyCharNotNL
  deriving DecidableEq, Repr

/-- Whether a rune is accepted; `.` accepts every rune but the line feed. -/
def CharClass.accepts : CharClass → Char → Bool
  | .lit c, d => d == c
  | .anyCharNotNL, d => d != Char.ofNat 10

/-- Parsed regular expressions: the operators of Go's `regexp` package that occur in
`pattern` (empty match, literal rune string, greedy star of a single-rune operand,
concatenation, alternation, capture, and the text anchors `^` and `$` as they behave
without the `m` flag). -/
inductive Regexp where
  | emptyMatch
  | literal (runes : List Char)
  | star (cc : CharClass)
  | concat (a b : Regexp)
  | alternate (a b : Regexp)
  | capture (idx : Nat) (sub : Regexp)
  | beginText
  | endText
  deriving Repr

/-- Capture registers: for each group index the start and end offsets. -/
abbrev Caps := Nat → Option (Nat × Nat)

/-- Setting one capture register. -/
def Caps.set (cap : Caps) (i : Nat) (se : Nat × Nat) : Caps :=
  fun j => if j = i then some se else cap j

/-- A continuation of the matcher: offset reached, input left, captures so far. -/
abbrev Cont := Nat → List Char → Caps → Option Caps

/-- Greedy `cc*` in backtracking order: one more rune is tried first, and only when the
rest of the expression fails after that does the loop stop at the current offset. -/
def starLoop (cc : CharClass) : List Char → Nat → Caps → Cont → Option Caps
  | [], pos, cap, k => k pos [] cap
  | c :: tl, pos, cap, k =>
    if cc.accepts c then
      match starLoop cc tl (pos + 1) cap k with
      | some r => some r
      | none => k pos (c :: tl) cap
    else k pos (c :: tl) cap

/-- Leftmost-first matching at a fixed start: the first match a backtracking search
finds. Alternatives are tried left to right, the star is greedy. -/
def Regexp.backtrack : Regexp → Nat → List Char → Caps → Cont → Option Caps
  | .emptyMatch, pos, rest, cap, k => k pos rest cap
  | .literal runes, pos, rest, cap, k =>
    if runes.isPrefixOf rest then k (pos + runes.length) (rest.drop runes.length) cap
    else none
  | .star cc, pos, rest, cap, k => starLoop cc rest pos cap k
  | .concat a b, pos, rest, cap, k =>
    a.backtrack pos rest cap (fun p r c => b.backtrack p r c k)
  | .alternate a b, pos, rest, cap, k =>
    match a.backtrack pos rest cap k with
    | some r => some r
    | none => b.backtrack pos rest cap k
  | .capture idx sub, pos, rest, cap, k =>
    sub.backtrack pos rest cap (fun p r c => k p r (c.set idx (pos, p)))
  | .beginText, pos, rest, cap, k => if pos = 0 then k pos rest cap else none
  | .endText, pos, rest, cap, k => if rest = [] then k pos rest cap else none

/-- The match starting at offset `pos`, with register 0 holding the whole match. -/
def Regexp.matchAt (re : Regexp) (pos : Nat) (rest : List Char) : Option Caps :=
  re.backtrack pos rest (fun _ => none) (fun p _ c => some (c.set 0 (pos, p)))

/-- The leftmost match: start offsets are tried from `pos` upwards. -/
def Regexp.search (re : Regexp) : Nat → List Char → Option Caps
  | pos, [] => re.matchAt pos []
  | pos, c :: tl =>
    match re.matchAt pos (c :: tl) with
    | some r => some r
    | none => re.search (pos + 1) tl

/-- The text of one capture register; a group that took no part gives `""`. -/
def submatch (s : List Char) (cap : Caps) (i : Nat) : String :=
  match cap i with
  | some (b, e) => String.mk ((s.drop b).take (e - b))
  | none => ""

/-- Go's `(*Regexp).FindStringSubmatch`: `nil` without a match, else the text of the whole
match followed by the text of each of the `numSubexp` groups. -/
def FindStringSubmatch (re : Regexp) (numSubexp : Nat) (s : String) : Option (List String) :=
  match re.search 0 s.data with
  | none => none
  | some cap => some ((List.range (numSubexp + 1)).map (submatch s.data cap))

/-- The alternation inside the group of `pattern`: the four extensions, then the empty
alternative, in source order. -/
def patternGroup : Regexp :=
  .alternate (.literal ".zst".data)
    (.alternate (.literal ".xz".data)
      (.alternate (.literal ".gz".data)
        (.alternate (.literal ".bz2".data) .emptyMatch)))

/-- The source's `pattern`, the parse of `^.*(\.zst|\.xz|\.gz|\.bz2|)$`. -/
def pattern : Regexp :=
  .concat .beginText
    (.concat (.star .anyCharNotNL)
      (.concat (.capture 1 patternGroup) .endText))

/-! ## Errors, effects and the collaborators -/

/-- A non-nil Go error value: one produced by a collaborator (the operating system or a
decoder), or the value `errors.Join` builds around a list of errors. -/
inductive ErrorValue where
  | ext (msg : String)
  | join (errs : List ErrorValue)

/-- Go's `error` interface: `nil` (`none`) or an error value. -/
abbrev Err := Option ErrorValue

/-- Go's `errors.Join`: `nil` when every argument is `nil`; otherwise a join value holding
the non-nil arguments in their order. -/
def errors_Join (errs : List Err) : Err :=
  if (errs.filter Option.isSome).length = 0 then none
  else some (ErrorValue.join (errs.filterMap id))

/-- The four compressed formats. -/
inductive Format where
  | zstd
  | xz
  | gzip
  | bzip2
  deriving DecidableEq, Repr

/-- Effects on the outside world, in the order they happen. -/
inductive Event where
  | osOpen (name : String)
  | fileClose (fd : Nat)
  | newReader (fmt : Format)
  | decoderClose (fmt : Format)
  deriving DecidableEq, Repr

/-- The world is the trace of effects performed so far. -/
abbrev World := List Event

/-- Byte sequences. -/
abbrev Bytes := List Nat

/-- The collaborators, as oracles that may look at the history: the file system behind
`os.Open`, `(*os.File).Read` and `(*os.File).Close`, standard input, and the decoders
(whether construction over given input fails, what reading to the end yields, and
what `(*gzip.Reader).Close` returns). -/
structure Env where
  openFile : String → World → Except ErrorValue Nat
  fileBytes : Nat → World → Except ErrorValue Bytes
  fileCloseErr : Nat → World → Err
  stdinBytes : World → Except ErrorValue Bytes
  newReaderErr : Format → Except ErrorValue Bytes → World → Err
  decode : Format → Bytes → Except ErrorValue Bytes
  gzipCloseErr : World → Err

/-- Go's `io.Reader`, observed through what reading to end-of-stream yields. -/
structure Reader where
  ReadAll : World → Except ErrorValue Bytes

/-- Go's `io.ReadCloser`. -/
structure ReadCloser extends Reader where
  Close : World → Err × World

/-- An open `*os.File`: reads give the file's bytes, `Close` releases the descriptor. -/
def osFile (env : Env) (fd : Nat) : ReadCloser :=
  { ReadAll := env.fileBytes fd
    Close := fun w => (env.fileCloseErr fd w, w ++ [Event.fileClose fd]) }

/-- Go's `os.ErrInvalid`. -/
def os_ErrInvalid : ErrorValue := .ext "invalid argument"

/-- A nil `*os.File` seen as an `io.ReadCloser`: a non-nil interface value that holds no
file. Its methods check the receiver: `Read` and `Close` return `os.ErrInvalid` and do
nothing. -/
def nilFile : ReadCloser :=
  { ReadAll := fun _ => .error os_ErrInvalid
    Close := fun w => (some os_ErrInvalid, w) }

/-- Go's `os.Open`, with its results `(*os.File, error)`: the pointer is `none` for nil and
else names the descriptor; on failure the pointer is nil and the error is set. -/
def os_Open (env : Env) (name : String) (w : World) : Option Nat × Err × World :=
  match env.openFile name w with
  | .ok fd => (some fd, none, w ++ [Event.osOpen name])
  | .error e => (none, some e, w ++ [Event.osOpen name])

/-- The conversion of a `*os.File` to the interface type `io.ReadCloser`: the result is a
non-nil interface value, also for the nil pointer. -/
def fileAsReadCloser (env : Env) : Option Nat → ReadCloser
  | some fd => osFile env fd
  | none => nilFile

/-- Go's `os.Stdin`, as a reader. -/
def os_Stdin (env : Env) : Reader :=
  { ReadAll := env.stdinBytes }

/-- Go's `io.NopCloser`: the reader's reads, and a `Close` that does nothing. -/
def io_NopCloser (r : Reader) : ReadCloser :=
  { ReadAll := r.ReadAll
    Close := fun w => (none, w) }

/-- What reading a decoder of format `fmt` over `r` to the end yields. -/
def decodedReads (env : Env) (fmt : Format) (r : Reader) : World → Except ErrorValue Bytes :=
  fun w => (r.ReadAll w).bind (env.decode fmt)

/-- A `*zstd.Decoder`: a reader whose `Close` returns nothing. -/
structure ZstdDecoder extends Reader where
  Close : World → World

/-- A `*gzip.Reader`: a reader whose `Close` returns an error. -/
structure GzipReader extends Reader where
  Close : World → Err × World

/-- The call `zstd.NewReader(r)`. -/
def zstd_NewReader (env : Env) (r : Reader) (w : World) : Except ErrorValue ZstdDecoder × World :=
  match env.newReaderErr .zstd (r.ReadAll w) w with
  | some e => (.error e, w ++ [Event.newReader .zstd])
  | none =>
    (.ok { ReadAll := decodedReads env .zstd r
           Close := fun w1 => w1 ++ [Event.decoderClose .zstd] },
     w ++ [Event.newReader .zstd])

/-- The call `xz.NewReader(r)`; an xz reader has no `Close`. -/
def xz_NewReader (env : Env) (r : Reader) (w : World) : Except ErrorValue Reader × World :=
  match env.newReaderErr .xz (r.ReadAll w) w with
  | some e => (.error e, w ++ [Event.newReader .xz])
  | none => (.ok { ReadAll := decodedReads env .xz r }, w ++ [Event.newReader .xz])

/-- The call `gzip.NewReader(r)`. -/
def gzip_NewReader (env : Env) (r : Reader) (w : World) : Except ErrorValue GzipReader × World :=
  match env.newReaderErr .gzip (r.ReadAll w) w with
  | some e => (.error e, w ++ [Event.newReader .gzip])
  | none =>
    (.ok { ReadAll := decodedReads env .gzip r
           Close := fun w1 => (env.gzipCloseErr w1, w1 ++ [Event.decoderClose .gzip]) },
     w ++ [Event.newReader .gzip])

/-- The call `bzip2.NewReader(r)`: it returns a reader and no error, and has no `Close`. -/
def bzip2_NewReader (env : Env) (r : Reader) (w : World) : Reader × World :=
  ({ ReadAll := decodedReads env .bzip2 r }, w ++ [Event.newReader .bzip2])

/-! ## The source: `readerCloser`, the helpers and `Open` -/

/-- A value of type `func() error`. -/
abbrev Closer := World → Err × World

/-- The source's `readerCloser`; a nil `closers` slice is `none`. -/
structure readerCloser where
  Reader : Xopen.Reader
  closers : Option (List Closer)

/-- The `for ... range r.closers` loop of `Close`, appending each non-nil error to `errs`. -/
def closeLoop : List Closer → List Err → World → List Err × World
  | [], errs, w => (errs, w)
  | closer :: rest, errs, w =>
    match closer w with
    | (some err, w1) => closeLoop rest (errs ++ [some err]) w1
    | (none, w1) => closeLoop rest errs w1

/-- The source's `(*readerCloser).Close`. -/
def readerCloser.Close (r : readerCloser) (w : World) : Err × World :=
  match r.closers with
  | none => (errors_Join [], w)
  | some cs =>
    match closeLoop cs [] w with
    | (errs, w1) => (errors_Join errs, w1)

/-- A `*readerCloser` used as an `io.ReadCloser`: the embedded reader's reads and the
`Close` method. -/
def readerCloser.toReadCloser (r : readerCloser) : ReadCloser :=
  { ReadAll := r.Reader.ReadAll
    Close := r.Close }

/-- What a call of a function with results `(io.ReadCloser, error)` comes to: the
call-depth budget is exhausted, or the call panics (a method of a nil interface value is
used), or it returns a stream value (`none` is the nil interface), an error and the world
afterwards. -/
inductive Outcome where
  | exhausted
  | panicked
  | returned (stream : Option ReadCloser) (err : Err) (w : World)

/-- The statement `return os.Open(filename)` in a function with results
`(io.ReadCloser, error)`: both results of `os.Open` are passed on, the `*os.File`
converted to the interface type. -/
def returnOsOpen (env : Env) (filename : String) (w : World) : Outcome :=
  match os_Open env filename w with
  | (file, err, w1) => .returned (some (fileAsReadCloser env file)) err w1

mutual

/-- The source's `openZSTD`. With a nil `f` and a nil error, which `Open` never returns,
taking the method value `f.Close` panics. -/
def openZSTD (env : Env) : Nat → String → World → Outcome
  | 0, _, _ => .exhausted
  | fuel + 1, filename, w =>
    match Open env fuel filename w with
    | .exhausted => .exhausted
    | .panicked => .panicked
    | .returned _ (some err) w1 => .returned none (some err) w1
    | .returned none none _ => .panicked
    | .returned (some f) none w1 =>
      match zstd_NewReader env f.toReader w1 with
      | (.error err, w2) => .returned none (some err) (f.Close w2).2
      | (.ok decoder, w2) =>
        .returned (some (readerCloser.toReadCloser
          { Reader := decoder.toReader
            closers := some [fun w3 => (none, decoder.Close w3), f.Close] })) none w2

/-- The source's `openXZ`. With a nil `f` and a nil error, which `Open` never returns,
reading from `f` panics. -/
def openXZ (env : Env) : Nat → String → World → Outcome
  | 0, _, _ => .exhausted
  | fuel + 1, filename, w =>
    match Open env fuel filename w with
    | .exhausted => .exhausted
    | .panicked => .panicked
    | .returned _ (some err) w1 => .returned none (some err) w1
    | .returned none none _ => .panicked
    | .returned (some f) none w1 =>
      match xz_NewReader env f.toReader w1 with
      | (.error err, w2) => .returned none (some err) (f.Close w2).2
      | (.ok r, w2) =>
        .returned (some (readerCloser.toReadCloser
          { Reader := r
            closers := some [f.Close] })) none w2

/-- The source's `openGZ`. With a nil `f` and a nil error, which `Open` never returns,
reading from `f` panics. -/
def openGZ (env : Env) : Nat → String → World → Outcome
  | 0, _, _ => .exhausted
  | fuel + 1, filename, w =>
    match Open env fuel filename w with
    | .exhausted => .exhausted
    | .panicked => .panicked
    | .returned _ (some err) w1 => .returned none (some err) w1
    | .returned none none _ => .panicked
    | .returned (some f) none w1 =>
      match gzip_NewReader env f.toReader w1 with
      | (.error err, w2) => .returned none (some err) (f.Close w2).2
      | (.ok r, w2) =>
        .returned (some (readerCloser.toReadCloser
          { Reader := r.toReader
            closers := some [r.Close, f.Close] })) none w2

/-- The source's `openBZ2`. With a nil `f` and a nil error, which `Open` never returns,
taking the method value `f.Close` panics. -/
def openBZ2 (env : Env) : Nat → String → World → Outcome
  | 0, _, _ => .exhausted
  | fuel + 1, filename, w =>
    match Open env fuel filename w with
    | .exhausted => .exhausted
    | .panicked => .panicked
    | .returned _ (some err) w1 => .returned none (some err) w1
    | .returned none none _ => .panicked
    | .returned (some f) none w1 =>
      match bzip2_NewReader env f.toReader w1 with
      | (r, w2) =>
        .returned (some (readerCloser.toReadCloser
          { Reader := r
            closers := some [f.Close] })) none w2

/-- The source's `Open`. The first argument bounds the depth of the calls between `Open`
and the helpers; `match[1]` is entry 1 of the submatch list, which always has two
entries. -/
def Open (env : Env) : Nat → String → World → Outcome
  | 0, _, _ => .exhausted
  | fuel + 1, filename, w =>
    if filename = "-" then .returned (some (io_NopCloser (os_Stdin env))) none w
    else
      match FindStringSubmatch pattern 1 filename with
      | none => returnOsOpen env filename w
      | some m =>
        if m.getD 1 "" = ".zst" then openZSTD env fuel filename w
        else if m.getD 1 "" = ".xz" then openXZ env fuel filename w
        else if m.getD 1 "" = ".gz" then openGZ env fuel filename w
        else if m.getD 1 "" = ".bz2" then openBZ2 env fuel filename w
        else returnOsOpen env filename w

end

/-! ## Vocabulary for the properties -/

/-- Whether an identifier ends with an extension (Go's `strings.HasSuffix`). -/
def hasSuffix (filename ext : String) : Bool :=
  ext.data.isSuffixOf filename.data

/-- Reference semantics of closing a list of resources: every closer is called once, in
list order, each on the world its predecessor left, and every result (nil included) is
kept, in order. -/
def callEachOnce : List Closer → World → List Err × World
  | [], w => ([], w)
  | closer :: rest, w =>
    ((closer w).1 :: (callEachOnce rest (closer w).2).1, (callEachOnce rest (closer w).2).2)

/-- A closer that records its own number in the trace and returns a fixed result. -/
def probe (i : Nat) (result : Err) : Closer :=
  fun w => (result, w ++ [Event.fileClose i])

/-- The probes for a list of results, numbered from `i`. -/
def probes : Nat → List Err → List Closer
  | _, [] => []
  | i, result :: rest => probe i result :: probes (i + 1) rest

/-! ## A concrete world for the examples -/

/-- A plaintext of 100 bytes. -/
def plaintext : Bytes := List.range 100

/-- The leading magic bytes of each format. -/
def magic : Format → Bytes
  | .zstd => [40, 181, 47, 253]
  | .xz => [253, 55, 122, 88, 90, 0]
  | .gzip => [31, 139]
  | .bzip2 => [66, 90, 104]

/-- Stand-in for the compressed form of `plaintext` in each format. -/
def packed (fmt : Format) : Bytes := magic fmt ++ [7, 7, 7]

/-- A file system with the plaintext under `data.txt` and `dir.gz/data.txt`, its compressed
forms under `data.zst`, `data.xz`, `data.gz`, `data.bz2`, and a file `notes.gz` that is not
gzip data; decoders that accept input starting with their magic bytes and decode the
stand-in to the plaintext; closes that succeed. -/
def sampleEnv : Env :=
  { openFile := fun name _ =>
      if name = "data.txt" then .ok 3
      else if name = "data.zst" then .ok 4
      else if name = "data.xz" then .ok 5
      else if name = "data.gz" then .ok 6
      else if name = "data.bz2" then .ok 7
      else if name = "notes.gz" then .ok 8
      else if name = "dir.gz/data.txt" then .ok 9
      else .error (.ext "no such file or directory")
    fileBytes := fun fd _ =>
      if fd = 4 then .ok (packed .zstd)
      else if fd = 5 then .ok (packed .xz)
      else if fd = 6 then .ok (packed .gzip)
      else if fd = 7 then .ok (packed .bzip2)
      else if fd = 8 then .ok [110, 111, 116, 101]
      else .ok plaintext
    fileCloseErr := fun _ _ => none
    stdinBytes := fun _ => .ok [104, 105]
    newReaderErr := fun fmt src _ =>
      match src with
      | .ok bytes => if (magic fmt).isPrefixOf bytes then none else some (.ext "invalid header")
      | .error e => some e
    decode := fun fmt bytes =>
      if bytes = packed fmt then .ok plaintext else .error (.ext "corrupt input")
    gzipCloseErr := fun _ => none }

/-- The same world, except that closing a file and closing a gzip reader both fail. -/
def failingCloseEnv : Env :=
  { sampleEnv with
    fileCloseErr := fun _ _ => some (.ext "close failed")
    gzipCloseErr := fun _ => some (.ext "gzip: close failed") }

/-! ## Lemmas on the matcher -/

/-- The line feed, the one rune `.` rejects. -/
theorem accepts_anyCharNotNL (c : Char) :
    CharClass.anyCharNotNL.accepts c = true ↔ c ≠ Char.ofNat 10 := by
  simp [CharClass.accepts]

/-- A greedy star whose operand accepts every rune left runs to the end of the input when
the rest of the expression matches there. -/
theorem starLoop_to_end (cc : CharClass) (k : Cont) (r : Caps) :
    ∀ (s : List Char) (pos : Nat) (cap : Caps), (∀ c ∈ s, cc.accepts c = true) →
      k (pos + s.length) [] cap = some r → starLoop cc s pos cap k = some r := by
  intro s
  induction s with
  | nil => intro pos cap _ hk; simpa [starLoop] using hk
  | cons c tl ih =>
    intro pos cap hall hk
    have hc : cc.accepts c = true := hall c (List.mem_cons_self c tl)
    have htl : ∀ d ∈ tl, cc.accepts d = true := fun d hd => hall d (List.mem_cons_of_mem c hd)
    have hk2 : k (pos + 1 + tl.length) [] cap = some r := by
      have : pos + 1 + tl.length = pos + (c :: tl).length := by simp; omega
      rw [this]; exact hk
    simp [starLoop, hc, ih (pos + 1) cap htl hk2]

/-- A star of `.` fails when the input holds a line feed and the rest of the expression
fails on every input that holds one. -/
theorem starLoop_blocked (k : Cont)
    (hk : ∀ (p : Nat) (t : List Char) (c : Caps), Char.ofNat 10 ∈ t → k p t c = none) :
    ∀ (s : List Char) (pos : Nat) (cap : Caps), Char.ofNat 10 ∈ s →
      starLoop .anyCharNotNL s pos cap k = none := by
  intro s
  induction s with
  | nil => intro pos cap h; simp at h
  | cons c tl ih =>
    intro pos cap h
    by_cases hc : c = Char.ofNat 10
    · subst hc
      simp [starLoop, CharClass.accepts, hk pos _ cap h]
    · have htl : Char.ofNat 10 ∈ tl := by
        rcases List.mem_cons.mp h with h1 | h1
        · exact absurd h1.symm hc
        · exact h1
      simp [starLoop, CharClass.accepts, hc, ih (pos + 1) cap htl, hk pos _ cap h]

/-- A literal followed by the end of text matches exactly the input equal to the literal. -/
theorem isPrefixOf_drop_nil (runes t : List Char) (h1 : runes.isPrefixOf t = true)
    (h2 : t.drop runes.length = []) : t = runes := by
  rw [List.isPrefixOf_iff_prefix] at h1
  obtain ⟨u, hu⟩ := h1
  subst hu
  simp at h2
  simp [h2]

/-- A literal without a line feed leaves the line feed in the remaining input, so it
fails when what follows fails on every input holding one. -/
theorem literal_blocked (runes : List Char) (hr : Char.ofNat 10 ∉ runes) (K : Cont)
    (hK : ∀ (p : Nat) (t : List Char) (c : Caps), Char.ofNat 10 ∈ t → K p t c = none)
    (p : Nat) (t : List Char) (c : Caps) (h : Char.ofNat 10 ∈ t) :
    (Regexp.literal runes).backtrack p t c K = none := by
  simp only [Regexp.backtrack]
  split
  · next h1 =>
    rw [List.isPrefixOf_iff_prefix] at h1
    obtain ⟨u, hu⟩ := h1
    subst hu
    apply hK
    rcases List.mem_append.mp h with h2 | h2
    · exact absurd h2 hr
    · simpa using h2
  · rfl

/-- An alternation fails when both of its branches fail. -/
theorem alternate_blocked (a b : Regexp) (K : Cont) (p : Nat) (t : List Char) (c : Caps)
    (ha : a.backtrack p t c K = none) (hb : b.backtrack p t c K = none) :
    (Regexp.alternate a b).backtrack p t c K = none := by
  simp [Regexp.backtrack, ha, hb]

/-- The group and the end anchor of `pattern` fail on input that holds a line feed. -/
theorem tail_blocked (k : Cont) (p : Nat) (t : List Char) (c : Caps)
    (h : Char.ofNat 10 ∈ t) :
    (Regexp.concat (.capture 1 patternGroup) .endText).backtrack p t c k = none := by
  have hK : ∀ (q : Nat) (u : List Char) (d : Caps), Char.ofNat 10 ∈ u →
      (fun q u d => Regexp.endText.backtrack q u (Caps.set d 1 (p, q)) k) q u d = none := by
    intro q u d hu
    have hne : u ≠ [] := by rintro rfl; simp at hu
    simp [Regexp.backtrack, hne]
  simp only [Regexp.backtrack.eq_4, Regexp.backtrack.eq_6, patternGroup]
  refine alternate_blocked _ _ _ p t c (literal_blocked _ (by decide) _ hK p t c h) ?_
  refine alternate_blocked _ _ _ p t c (literal_blocked _ (by decide) _ hK p t c h) ?_
  refine alternate_blocked _ _ _ p t c (literal_blocked _ (by decide) _ hK p t c h) ?_
  refine alternate_blocked _ _ _ p t c (literal_blocked _ (by decide) _ hK p t c h) ?_
  simpa [Regexp.backtrack] using hK p t c h

/-- At the end of the input the group of `pattern` takes its empty alternative. -/
theorem tail_at_end (k : Cont) (p : Nat) (c : Caps) :
    (Regexp.concat (.capture 1 patternGroup) .endText).backtrack p [] c k
      = k p [] (c.set 1 (p, p)) := by
  simp [Regexp.backtrack, patternGroup, List.isPrefixOf]

/-- On a string without a line feed, `pattern` matches the whole string from offset 0 and
its group is empty, at the end of the string. -/
theorem pattern_search_plain (s : List Char) (h : Char.ofNat 10 ∉ s) :
    ∃ cap : Caps, pattern.search 0 s = some cap
      ∧ cap 0 = some (0, s.length) ∧ cap 1 = some (s.length, s.length) := by
  have hm : pattern.matchAt 0 s
      = some (Caps.set (Caps.set (fun _ => none) 1 (s.length, s.length)) 0 (0, s.length)) := by
    show starLoop .anyCharNotNL s 0 (fun _ => none)
      (fun p r c => (Regexp.concat (.capture 1 patternGroup) .endText).backtrack p r c
        (fun p _ c => some (Caps.set c 0 (0, p)))) = _
    apply starLoop_to_end
    · intro c hc
      rw [accepts_anyCharNotNL]
      rintro rfl
      exact h hc
    · rw [tail_at_end]
      simp
  refine ⟨Caps.set (Caps.set (fun _ => none) 1 (s.length, s.length)) 0 (0, s.length),
    ?_, ?_, ?_⟩
  · cases s with
    | nil => simpa [Regexp.search] using hm
    | cons c tl => simp [Regexp.search, hm]
  · simp [Caps.set]
  · simp [Caps.set]

/-- Away from offset 0 the anchor `^` fails, so `pattern` has no match there. -/
theorem pattern_search_later (s : List Char) :
    ∀ pos : Nat, 0 < pos → pattern.search pos s = none := by
  induction s with
  | nil =>
    intro pos hpos
    have : pos ≠ 0 := by omega
    simp [Regexp.search, Regexp.matchAt, pattern, Regexp.backtrack, this]
  | cons c tl ih =>
    intro pos hpos
    have hp : pos ≠ 0 := by omega
    have hm : pattern.matchAt pos (c :: tl) = none := by
      simp [Regexp.matchAt, pattern, Regexp.backtrack, hp]
    rw [Regexp.search, hm]
    exact ih (pos + 1) (by omega)

/-- On a string that holds a line feed, `pattern` has no match at all. -/
theorem pattern_search_linefeed (s : List Char) (h : Char.ofNat 10 ∈ s) :
    pattern.search 0 s = none := by
  have hm : pattern.matchAt 0 s = none := by
    show starLoop .anyCharNotNL s 0 (fun _ => none)
      (fun p r c => (Regexp.concat (.capture 1 patternGroup) .endText).backtrack p r c
        (fun p _ c => some (Caps.set c 0 (0, p)))) = none
    exact starLoop_blocked _ (fun p t c ht => tail_blocked _ p t c ht) s 0 _ h
  cases s with
  | nil => simp at h
  | cons c tl => simp [Regexp.search, hm, pattern_search_later tl 1]

/-- What `FindStringSubmatch` returns for `pattern`: no match on a string holding a line
feed, and otherwise the whole string with an empty group. -/
theorem pattern_FindStringSubmatch (s : String) :
    FindStringSubmatch pattern 1 s
      = if Char.ofNat 10 ∈ s.data then none else some [s, ""] := by
  by_cases h : Char.ofNat 10 ∈ s.data
  · simp [FindStringSubmatch, pattern_search_linefeed s.data h, h]
  · obtain ⟨cap, h1, h2, h3⟩ := pattern_search_plain s.data h
    simp [FindStringSubmatch, h1, h, List.range_succ, submatch, h2, h3]
    show String.mk (List.take s.data.length s.data) = s
    rw [List.take_length]


/-! ## `Open` never reaches a helper -/

/-- For every identifier but `"-"`, one level of call depth is enough for `Open`, and the
outcome is that of `return os.Open(filename)`: the group of `pattern` is always empty, so
the `switch` takes its default branch (or there is no match at all). -/
theorem Open_eq_os_Open (env : Env) (fuel : Nat) (filename : String) (w : World)
    (hdash : filename ≠ "-") :
    Open env (fuel + 1) filename w = returnOsOpen env filename w := by
  rw [Open]
  simp only [hdash, if_false, pattern_FindStringSubmatch]
  by_cases h : Char.ofNat 10 ∈ filename.data
  · simp [h]
  · simp only [h, if_false]
    have h1 : ¬ ("" : String) = ".zst" := by decide
    have h2 : ¬ ("" : String) = ".xz" := by decide
    have h3 : ¬ ("" : String) = ".gz" := by decide
    have h4 : ¬ ("" : String) = ".bz2" := by decide
    simp [List.getD, h1, h2, h3, h4]

/-- What `return os.Open(filename)` gives when the file opens: the file and a nil error. -/
theorem returnOsOpen_ok (env : Env) (filename : String) (w : World) (fd : Nat)
    (h : env.openFile filename w = .ok fd) :
    returnOsOpen env filename w
      = .returned (some (osFile env fd)) none (w ++ [Event.osOpen filename]) := by
  simp [returnOsOpen, os_Open, h, fileAsReadCloser]

/-- What `return os.Open(filename)` gives when opening fails: the error, beside the nil
`*os.File` as a non-nil interface value. -/
theorem returnOsOpen_error (env : Env) (filename : String) (w : World) (e : ErrorValue)
    (h : env.openFile filename w = .error e) :
    returnOsOpen env filename w
      = .returned (some nilFile) (some e) (w ++ [Event.osOpen filename]) := by
  simp [returnOsOpen, os_Open, h, fileAsReadCloser]

/-- The identifier `"-"` gives standard input behind a no-op `Close`, in an unchanged
world. -/
theorem Open_dash (env : Env) (fuel : Nat) (w : World) :
    Open env (fuel + 1) "-" w = .returned (some (io_NopCloser (os_Stdin env))) none w := by
  rw [Open]
  simp

/-- For every identifier, `Open` returns with a call depth of one, the outcome does not
depend on the budget, and the stream value returned is never the nil interface. -/
theorem Open_total (env : Env) (filename : String) (w : World) :
    ∃ (f : ReadCloser) (err : Err) (w1 : World),
      ∀ fuel : Nat, Open env (fuel + 1) filename w = .returned (some f) err w1 := by
  by_cases hdash : filename = "-"
  · subst hdash
    exact ⟨_, _, _, fun fuel => Open_dash env fuel w⟩
  · cases h : env.openFile filename w with
    | ok fd =>
      exact ⟨osFile env fd, none, w ++ [Event.osOpen filename], fun fuel =>
        (Open_eq_os_Open env fuel filename w hdash).trans (returnOsOpen_ok env filename w fd h)⟩
    | error e =>
      exact ⟨nilFile, some e, w ++ [Event.osOpen filename], fun fuel =>
        (Open_eq_os_Open env fuel filename w hdash).trans
          (returnOsOpen_error env filename w e h)⟩

/-! ## Lemmas on `Close` -/

/-- The loop of `Close` calls the closers as the reference semantics does and keeps the
non-nil results. -/
theorem closeLoop_eq_callEachOnce :
    ∀ (cs : List Closer) (errs : List Err) (w : World),
      closeLoop cs errs w
        = (errs ++ (callEachOnce cs w).1.filter Option.isSome, (callEachOnce cs w).2) := by
  intro cs
  induction cs with
  | nil => intro errs w; simp [closeLoop, callEachOnce]
  | cons c rest ih =>
    intro errs w
    rw [closeLoop, callEachOnce]
    cases hc : c w with
    | mk res w1 =>
      cases res with
      | none => simp [ih]
      | some e => simp [ih]

/-- Dropping the nil entries first does not change what `errors.Join` returns. -/
theorem errors_Join_filter (l : List Err) :
    errors_Join (l.filter Option.isSome) = errors_Join l := by
  have h : (l.filter Option.isSome).filterMap id = l.filterMap id := by
    induction l with
    | nil => rfl
    | cons a t ih => cases a <;> simp [List.filter_cons, ih]
  have h2 : (l.filter Option.isSome).filter Option.isSome = l.filter Option.isSome := by
    rw [List.filter_filter]
    congr 1
    funext a
    simp
  rw [errors_Join, errors_Join, h, h2]

/-- The result of `errors.Join` is nil exactly when every argument is nil. -/
theorem errors_Join_eq_none_iff (l : List Err) :
    errors_Join l = none ↔ ∀ e ∈ l, e = none := by
  simp only [errors_Join, List.length_eq_zero, List.filter_eq_nil_iff]
  constructor
  · intro h e he
    split at h
    · next h0 =>
      have := h0 e he
      cases e with
      | none => rfl
      | some x => simp at this
    · cases h
  · intro h
    rw [if_pos]
    intro a ha
    simp [h a ha]

/-- `Close` in terms of the reference semantics. -/
theorem Close_eq_callEachOnce (rd : Reader) (cs : List Closer) (w : World) :
    readerCloser.Close { Reader := rd, closers := some cs } w
      = (errors_Join (callEachOnce cs w).1, (callEachOnce cs w).2) := by
  simp [readerCloser.Close, closeLoop_eq_callEachOnce, errors_Join_filter]

/-- Calling numbered probes leaves their numbers in the trace, in order, and gives back
their results. -/
theorem callEachOnce_probes :
    ∀ (rs : List Err) (i : Nat) (w : World),
      callEachOnce (probes i rs) w
        = (rs, w ++ (List.range' i rs.length).map Event.fileClose) := by
  intro rs
  induction rs with
  | nil => intro i w; simp [probes, callEachOnce]
  | cons r rest ih =>
    intro i w
    simp [probes, callEachOnce, ih, probe, List.range'_succ]

/-- One result per closer: the reference semantics calls each closer once. -/
theorem callEachOnce_length :
    ∀ (cs : List Closer) (w : World), (callEachOnce cs w).1.length = cs.length := by
  intro cs
  induction cs with
  | nil => intro w; rfl
  | cons c rest ih => intro w; simp [callEachOnce, ih]

/-! ## Properties of `Open` -/

/-- C1 (the code at the failing inputs): in the sample world each of `data.zst`, `data.xz`,
`data.gz` and `data.bz2` holds data its decoder turns into the 100-byte plaintext, yet
`Open` returns the plain file: the only effect is the `os.Open` call, no decoder is
constructed, and reading the stream yields the compressed bytes, which differ from the
plaintext. -/
theorem Open_compressed_returns_raw_file :
    (Open sampleEnv 1 "data.zst" []
        = .returned (some (osFile sampleEnv 4)) none [Event.osOpen "data.zst"]
      ∧ (osFile sampleEnv 4).ReadAll [Event.osOpen "data.zst"] = .ok (packed .zstd)
      ∧ sampleEnv.decode .zstd (packed .zstd) = .ok plaintext ∧ packed .zstd ≠ plaintext)
    ∧ (Open sampleEnv 1 "data.xz" []
        = .returned (some (osFile sampleEnv 5)) none [Event.osOpen "data.xz"]
      ∧ (osFile sampleEnv 5).ReadAll [Event.osOpen "data.xz"] = .ok (packed .xz)
      ∧ sampleEnv.decode .xz (packed .xz) = .ok plaintext ∧ packed .xz ≠ plaintext)
    ∧ (Open sampleEnv 1 "data.gz" []
        = .returned (some (osFile sampleEnv 6)) none [Event.osOpen "data.gz"]
      ∧ (osFile sampleEnv 6).ReadAll [Event.osOpen "data.gz"] = .ok (packed .gzip)
      ∧ sampleEnv.decode .gzip (packed .gzip) = .ok plaintext ∧ packed .gzip ≠ plaintext)
    ∧ (Open sampleEnv 1 "data.bz2" []
        = .returned (some (osFile sampleEnv 7)) none [Event.osOpen "data.bz2"]
      ∧ (osFile sampleEnv 7).ReadAll [Event.osOpen "data.bz2"] = .ok (packed .bzip2)
      ∧ sampleEnv.decode .bzip2 (packed .bzip2) = .ok plaintext ∧ packed .bzip2 ≠ plaintext) := by
  refine ⟨⟨?_, rfl, rfl, by decide⟩, ⟨?_, rfl, rfl, by decide⟩, ⟨?_, rfl, rfl, by decide⟩,
    ⟨?_, rfl, rfl, by decide⟩⟩
  · rw [Open_eq_os_Open sampleEnv 0 "data.zst" [] (by decide)]; rfl
  · rw [Open_eq_os_Open sampleEnv 0 "data.xz" [] (by decide)]; rfl
  · rw [Open_eq_os_Open sampleEnv 0 "data.gz" [] (by decide)]; rfl
  · rw [Open_eq_os_Open sampleEnv 0 "data.bz2" [] (by decide)]; rfl

/-- C2: for every identifier other than `"-"` that ends in none of `.zst`, `.xz`, `.gz`,
`.bz2`, `Open` returns exactly what `os.Open` returns for it, file and error alike; when
the file opens, the stream is the file itself with a nil error, its reads are the file's
bytes, and the only effect is the `os.Open` call (no decoder is constructed). -/
theorem Open_without_suffix_is_plain_open (env : Env) (fuel : Nat) (filename : String)
    (w : World) (hdash : filename ≠ "-")
    (_hzst : hasSuffix filename ".zst" = false) (_hxz : hasSuffix filename ".xz" = false)
    (_hgz : hasSuffix filename ".gz" = false) (_hbz2 : hasSuffix filename ".bz2" = false) :
    Open env (fuel + 1) filename w
      = .returned (some (fileAsReadCloser env (os_Open env filename w).1))
          (os_Open env filename w).2.1 (os_Open env filename w).2.2
    ∧ ∀ fd : Nat, env.openFile filename w = .ok fd →
        Open env (fuel + 1) filename w
          = .returned (some (osFile env fd)) none (w ++ [Event.osOpen filename])
        ∧ (osFile env fd).ReadAll = env.fileBytes fd := by
  refine ⟨?_, ?_⟩
  · rw [Open_eq_os_Open env fuel filename w hdash]
    rfl
  · intro fd hfd
    refine ⟨?_, rfl⟩
    rw [Open_eq_os_Open env fuel filename w hdash]
    exact returnOsOpen_ok env filename w fd hfd

/-- C2 at `dir.gz/data.txt`, where a recognized extension occurs only in the directory:
the plain file is returned and reading it yields the plaintext. -/
theorem Open_without_suffix_is_plain_open_witness :
    "dir.gz/data.txt" ≠ "-" ∧ hasSuffix "dir.gz/data.txt" ".gz" = false
    ∧ sampleEnv.openFile "dir.gz/data.txt" [] = .ok 9
    ∧ Open sampleEnv 1 "dir.gz/data.txt" []
        = .returned (some (osFile sampleEnv 9)) none [Event.osOpen "dir.gz/data.txt"]
    ∧ (osFile sampleEnv 9).ReadAll [Event.osOpen "dir.gz/data.txt"] = .ok plaintext :=
  ⟨by decide, by decide, rfl,
    ((Open_without_suffix_is_plain_open sampleEnv 0 "dir.gz/data.txt" [] (by decide)
      (by decide) (by decide) (by decide) (by decide)).2 9 rfl).1, rfl⟩

/-- C3: `Open("-")` succeeds for every world and leaves it unchanged (no file is opened);
the stream's reads are those of standard input, and its `Close` returns nil and changes
nothing. -/
theorem Open_dash_is_stdin (env : Env) (fuel : Nat) (w : World) :
    ∃ f : ReadCloser, Open env (fuel + 1) "-" w = .returned (some f) none w
      ∧ f.ReadAll = env.stdinBytes
      ∧ ∀ w1 : World, f.Close w1 = (none, w1) :=
  ⟨io_NopCloser (os_Stdin env), Open_dash env fuel w, rfl, fun _ => rfl⟩

/-- C4 as stated fails: `missing.gz` cannot be opened, and `Open` returns the error
together with a stream value that is not nil. -/
theorem Open_open_error_comes_with_a_stream :
    sampleEnv.openFile "missing.gz" [] = .error (.ext "no such file or directory")
    ∧ ∃ s : Option ReadCloser,
        Open sampleEnv 1 "missing.gz" []
          = .returned s (some (.ext "no such file or directory"))
              [Event.osOpen "missing.gz"]
        ∧ s ≠ none := by
  refine ⟨rfl, some nilFile, ?_, by simp⟩
  rw [Open_eq_os_Open sampleEnv 0 "missing.gz" [] (by decide)]
  rfl

/-- C4, amended: for every identifier other than `"-"`, with or without a recognized
suffix, when `os.Open` fails with `e` then `Open` returns `e` itself, and the only effect
is the `os.Open` call, so no decoder is constructed. The stream value beside the error is
not nil: it is the nil `*os.File` that `os.Open` returned, as an interface value, which
holds no file (its reads and its `Close` return `os.ErrInvalid` and change nothing). Each
helper returns the same error beside a nil stream. -/
theorem Open_returns_open_error (env : Env) (fuel : Nat) (filename : String) (w : World)
    (e : ErrorValue) (hdash : filename ≠ "-") (herr : env.openFile filename w = .error e) :
    Open env (fuel + 1) filename w
      = .returned (some nilFile) (some e) (w ++ [Event.osOpen filename])
    ∧ (∀ w2 : World, nilFile.ReadAll w2 = .error os_ErrInvalid
        ∧ nilFile.Close w2 = (some os_ErrInvalid, w2))
    ∧ openZSTD env (fuel + 2) filename w
        = .returned none (some e) (w ++ [Event.osOpen filename])
    ∧ openXZ env (fuel + 2) filename w
        = .returned none (some e) (w ++ [Event.osOpen filename])
    ∧ openGZ env (fuel + 2) filename w
        = .returned none (some e) (w ++ [Event.osOpen filename])
    ∧ openBZ2 env (fuel + 2) filename w
        = .returned none (some e) (w ++ [Event.osOpen filename]) := by
  have h : Open env (fuel + 1) filename w
      = .returned (some nilFile) (some e) (w ++ [Event.osOpen filename]) := by
    rw [Open_eq_os_Open env fuel filename w hdash]
    exact returnOsOpen_error env filename w e herr
  refine ⟨h, fun _ => ⟨rfl, rfl⟩, ?_, ?_, ?_, ?_⟩
  · rw [openZSTD, h]
  · rw [openXZ, h]
  · rw [openGZ, h]
  · rw [openBZ2, h]

/-- C4, amended, at `missing.gz`, which does not exist in the sample world: `Open` returns
the error beside the boxed nil file, `openGZ` beside a nil stream. -/
theorem Open_returns_open_error_witness :
    "missing.gz" ≠ "-" ∧ hasSuffix "missing.gz" ".gz" = true
    ∧ sampleEnv.openFile "missing.gz" [] = .error (.ext "no such file or directory")
    ∧ Open sampleEnv 1 "missing.gz" []
        = .returned (some nilFile) (some (.ext "no such file or directory"))
            [Event.osOpen "missing.gz"]
    ∧ openGZ sampleEnv 2 "missing.gz" []
        = .returned none (some (.ext "no such file or directory"))
            [Event.osOpen "missing.gz"] :=
  ⟨by decide, by decide, rfl,
    (Open_returns_open_error sampleEnv 0 "missing.gz" [] (.ext "no such file or directory")
      (by decide) rfl).1,
    (Open_returns_open_error sampleEnv 0 "missing.gz" [] (.ext "no such file or directory")
      (by decide) rfl).2.2.2.2.1⟩

/-- C5 (the code at the failing input): `notes.gz` opens and its content is rejected by the
gzip decoder's constructor, yet `Open` returns no error: it returns the plain file, still
open (the trace holds the `os.Open` call only), whose reads yield the raw bytes. -/
theorem Open_bad_gz_returns_raw_file :
    sampleEnv.openFile "notes.gz" [] = .ok 8
    ∧ sampleEnv.newReaderErr .gzip (sampleEnv.fileBytes 8 [Event.osOpen "notes.gz"])
        [Event.osOpen "notes.gz"] = some (.ext "invalid header")
    ∧ Open sampleEnv 1 "notes.gz" []
        = .returned (some (osFile sampleEnv 8)) none [Event.osOpen "notes.gz"]
    ∧ (osFile sampleEnv 8).ReadAll [Event.osOpen "notes.gz"] = .ok [110, 111, 116, 101] := by
  refine ⟨rfl, rfl, ?_, rfl⟩
  rw [Open_eq_os_Open sampleEnv 0 "notes.gz" [] (by decide)]
  rfl

/-- C10: `Open` returns for every identifier and every world with a call depth of one:
the same results for every budget of at least one call, because no helper is ever
called; and each helper, which calls `Open` with the unchanged filename, returns with a
depth of two. No call exhausts its budget and none panics. -/
theorem Open_terminates (env : Env) (filename : String) (w : World) :
    (∃ (s : Option ReadCloser) (err : Err) (w1 : World),
      ∀ fuel : Nat, Open env (fuel + 1) filename w = .returned s err w1)
    ∧ ∀ fuel : Nat,
        (∃ (s : Option ReadCloser) (err : Err) (w1 : World),
          openZSTD env (fuel + 2) filename w = .returned s err w1)
        ∧ (∃ (s : Option ReadCloser) (err : Err) (w1 : World),
          openXZ env (fuel + 2) filename w = .returned s err w1)
        ∧ (∃ (s : Option ReadCloser) (err : Err) (w1 : World),
          openGZ env (fuel + 2) filename w = .returned s err w1)
        ∧ (∃ (s : Option ReadCloser) (err : Err) (w1 : World),
          openBZ2 env (fuel + 2) filename w = .returned s err w1) := by
  obtain ⟨f, err, w1, hr⟩ := Open_total env filename w
  refine ⟨⟨some f, err, w1, hr⟩, ?_⟩
  intro fuel
  refine ⟨?_, ?_, ?_, ?_⟩
  · rw [openZSTD, hr fuel]
    cases err with
    | some e => exact ⟨_, _, _, rfl⟩
    | none =>
      simp only
      cases hz : zstd_NewReader env f.toReader w1 with
      | mk a b => cases a <;> exact ⟨_, _, _, rfl⟩
  · rw [openXZ, hr fuel]
    cases err with
    | some e => exact ⟨_, _, _, rfl⟩
    | none =>
      simp only
      cases hz : xz_NewReader env f.toReader w1 with
      | mk a b => cases a <;> exact ⟨_, _, _, rfl⟩
  · rw [openGZ, hr fuel]
    cases err with
    | some e => exact ⟨_, _, _, rfl⟩
    | none =>
      simp only
      cases hz : gzip_NewReader env f.toReader w1 with
      | mk a b => cases a <;> exact ⟨_, _, _, rfl⟩
  · rw [openBZ2, hr fuel]
    cases err with
    | some e => exact ⟨_, _, _, rfl⟩
    | none => exact ⟨_, _, _, rfl⟩

/-! ## Properties of `Close` and of the helpers -/

/-- C6: `Close` calls every closer it holds exactly once, in list order, each on the world
its predecessor left, whether or not earlier ones failed, and returns `errors.Join` of
the results: nil exactly when every closer returned nil, otherwise the join of the
non-nil errors in call order. Closers that record their number leave `0, 1, ...` in the
trace, and when two closers (a decoder's and a file's) both fail, the returned join holds
both errors. A nil list of closers gives nil and changes nothing. -/
theorem Close_calls_every_closer_and_joins (rd : Reader) (cs : List Closer) (w : World) :
    readerCloser.Close { Reader := rd, closers := some cs } w
      = (errors_Join (callEachOnce cs w).1, (callEachOnce cs w).2)
    ∧ (callEachOnce cs w).1.length = cs.length
    ∧ ((readerCloser.Close { Reader := rd, closers := some cs } w).1 = none
        ↔ ∀ e ∈ (callEachOnce cs w).1, e = none)
    ∧ ((readerCloser.Close { Reader := rd, closers := some cs } w).1 ≠ none →
        (readerCloser.Close { Reader := rd, closers := some cs } w).1
          = some (ErrorValue.join ((callEachOnce cs w).1.filterMap id)))
    ∧ (∀ rs : List Err,
        readerCloser.Close { Reader := rd, closers := some (probes 0 rs) } w
          = (errors_Join rs, w ++ (List.range rs.length).map Event.fileClose))
    ∧ (∀ (c1 c2 : Closer) (e1 e2 : ErrorValue) (w1 w2 : World),
        c1 w = (some e1, w1) → c2 w1 = (some e2, w2) →
        readerCloser.Close { Reader := rd, closers := some [c1, c2] } w
          = (some (ErrorValue.join [e1, e2]), w2))
    ∧ readerCloser.Close { Reader := rd, closers := none } w = (none, w) := by
  refine ⟨Close_eq_callEachOnce rd cs w, callEachOnce_length cs w, ?_, ?_, ?_, ?_, ?_⟩
  · rw [Close_eq_callEachOnce]
    exact errors_Join_eq_none_iff _
  · rw [Close_eq_callEachOnce]
    intro h
    simp only [errors_Join] at h ⊢
    split
    · next h0 => simp [h0] at h
    · rfl
  · intro rs
    rw [Close_eq_callEachOnce, callEachOnce_probes, List.range_eq_range']
  · intro c1 c2 e1 e2 w1 w2 h1 h2
    rw [Close_eq_callEachOnce]
    simp [callEachOnce, h1, h2, errors_Join]
  · simp [readerCloser.Close, errors_Join]

/-- C6 where the gzip reader's close and the file's close both fail: both calls are made,
in that order, and the returned error holds both failures. -/
theorem Close_calls_every_closer_and_joins_witness :
    readerCloser.Close
        { Reader := os_Stdin failingCloseEnv
          closers := some [fun w1 => (failingCloseEnv.gzipCloseErr w1,
                             w1 ++ [Event.decoderClose .gzip]),
                           (osFile failingCloseEnv 6).Close] } []
      = (some (ErrorValue.join [.ext "gzip: close failed", .ext "close failed"]),
         [Event.decoderClose .gzip, Event.fileClose 6]) :=
  (Close_calls_every_closer_and_joins (os_Stdin failingCloseEnv) [] []).2.2.2.2.2.1
    (fun w1 => (failingCloseEnv.gzipCloseErr w1, w1 ++ [Event.decoderClose .gzip]))
    (osFile failingCloseEnv 6).Close (.ext "gzip: close failed") (.ext "close failed")
    [Event.decoderClose .gzip] [Event.decoderClose .gzip, Event.fileClose 6] rfl rfl

/-- C7: in `openZSTD`, `openXZ` and `openGZ`, when the call to `Open` gave the raw stream
`f` and the decoder's constructor then fails with `e`, the helper returns no stream and
exactly `e`, and the world it leaves is the one after the failed construction with
`f.Close` applied to it once; for a file that is one `Close` of its descriptor. The
result of that `Close` (any value of `env.fileCloseErr`) does not enter the outcome. -/
theorem decoder_failure_closes_raw_stream (env : Env) (fuel : Nat) (filename : String)
    (w w1 : World) (f : ReadCloser) (e : ErrorValue)
    (hopen : Open env fuel filename w = .returned (some f) none w1) :
    (env.newReaderErr .zstd (f.ReadAll w1) w1 = some e →
      openZSTD env (fuel + 1) filename w
        = .returned none (some e) (f.Close (w1 ++ [Event.newReader .zstd])).2)
    ∧ (env.newReaderErr .xz (f.ReadAll w1) w1 = some e →
      openXZ env (fuel + 1) filename w
        = .returned none (some e) (f.Close (w1 ++ [Event.newReader .xz])).2)
    ∧ (env.newReaderErr .gzip (f.ReadAll w1) w1 = some e →
      openGZ env (fuel + 1) filename w
        = .returned none (some e) (f.Close (w1 ++ [Event.newReader .gzip])).2)
    ∧ (∀ (fd : Nat) (w2 : World), f = osFile env fd →
        (f.Close w2).2 = w2 ++ [Event.fileClose fd]) := by
  refine ⟨?_, ?_, ?_, ?_⟩
  · intro h
    rw [openZSTD, hopen]
    simp [zstd_NewReader, h]
  · intro h
    rw [openXZ, hopen]
    simp [xz_NewReader, h]
  · intro h
    rw [openGZ, hopen]
    simp [gzip_NewReader, h]
  · intro fd w2 hf
    subst hf
    rfl

/-- C7 at `notes.gz` in the world where closing a file fails: `openGZ` returns the gzip
constructor's error, not the close error, and the trace shows the descriptor closed once,
after the failed construction. -/
theorem decoder_failure_closes_raw_stream_witness :
    Open failingCloseEnv 1 "notes.gz" []
        = .returned (some (osFile failingCloseEnv 8)) none [Event.osOpen "notes.gz"]
    ∧ failingCloseEnv.fileCloseErr 8 [Event.osOpen "notes.gz", Event.newReader .gzip]
        = some (.ext "close failed")
    ∧ openGZ failingCloseEnv 2 "notes.gz" []
        = .returned none (some (.ext "invalid header"))
            [Event.osOpen "notes.gz", Event.newReader .gzip, Event.fileClose 8] :=
  ⟨(Open_eq_os_Open failingCloseEnv 0 "notes.gz" [] (by decide)).trans rfl, rfl,
    (decoder_failure_closes_raw_stream failingCloseEnv 1 "notes.gz" []
      [Event.osOpen "notes.gz"] (osFile failingCloseEnv 8) (.ext "invalid header")
      ((Open_eq_os_Open failingCloseEnv 0 "notes.gz" [] (by decide)).trans rfl)).2.2.1 rfl⟩

/-- C8 as stated fails: in the world where closing a file fails, the stream `openXZ`
builds for `data.xz` returns from `Close` the join built around the file's close error,
which is not the file's close error itself. -/
theorem Close_error_is_a_join_not_the_file_error :
    ∃ (g : ReadCloser) (w1 : World),
      openXZ failingCloseEnv 2 "data.xz" [] = .returned (some g) none w1
      ∧ failingCloseEnv.fileCloseErr 5 w1 = some (.ext "close failed")
      ∧ (g.Close w1).1 = some (ErrorValue.join [.ext "close failed"])
      ∧ (g.Close w1).1 ≠ failingCloseEnv.fileCloseErr 5 w1 := by
  refine ⟨readerCloser.toReadCloser
      { Reader := { ReadAll := decodedReads failingCloseEnv .xz
                      (osFile failingCloseEnv 5).toReader }
        closers := some [(osFile failingCloseEnv 5).Close] },
    [Event.osOpen "data.xz", Event.newReader .xz], ?_, rfl, rfl, ?_⟩
  · rw [openXZ, Open_eq_os_Open failingCloseEnv 0 "data.xz" [] (by decide)]
    rfl
  · intro h
    have h2 : ErrorValue.join [.ext "close failed"] = ErrorValue.ext "close failed" :=
      Option.some.inj h
    cases h2

/-- C8, amended: when the call to `Open` gave the raw stream `f` and the decoder is
constructed, each helper returns a stream whose reads are the decoder's reads over `f`.
Its `Close` calls `f.Close` once: for zstd and gzip on the world left by the decoder's
close, for xz and bzip2 directly (no decoder close happens). The error `Close` returns is
`errors.Join` of the results: for zstd, xz and bzip2 nil when `f.Close` returns nil and
otherwise the join holding that one error; for gzip the join over the reader's and the
file's results. -/
theorem helper_streams_read_and_close (env : Env) (fuel : Nat) (filename : String)
    (w w1 : World) (f : ReadCloser)
    (hopen : Open env fuel filename w = .returned (some f) none w1) :
    (env.newReaderErr .zstd (f.ReadAll w1) w1 = none →
      ∃ g : ReadCloser,
        openZSTD env (fuel + 1) filename w = .returned (some g) none (w1 ++ [Event.newReader .zstd])
        ∧ g.ReadAll = decodedReads env .zstd f.toReader
        ∧ ∀ w3 : World, g.Close w3
            = (((f.Close (w3 ++ [Event.decoderClose .zstd])).1).map
                 (fun e => ErrorValue.join [e]),
               (f.Close (w3 ++ [Event.decoderClose .zstd])).2))
    ∧ (env.newReaderErr .xz (f.ReadAll w1) w1 = none →
      ∃ g : ReadCloser,
        openXZ env (fuel + 1) filename w = .returned (some g) none (w1 ++ [Event.newReader .xz])
        ∧ g.ReadAll = decodedReads env .xz f.toReader
        ∧ ∀ w3 : World, g.Close w3
            = (((f.Close w3).1).map (fun e => ErrorValue.join [e]), (f.Close w3).2))
    ∧ (env.newReaderErr .gzip (f.ReadAll w1) w1 = none →
      ∃ g : ReadCloser,
        openGZ env (fuel + 1) filename w = .returned (some g) none (w1 ++ [Event.newReader .gzip])
        ∧ g.ReadAll = decodedReads env .gzip f.toReader
        ∧ ∀ w3 : World, g.Close w3
            = (errors_Join [env.gzipCloseErr w3,
                 (f.Close (w3 ++ [Event.decoderClose .gzip])).1],
               (f.Close (w3 ++ [Event.decoderClose .gzip])).2))
    ∧ (∃ g : ReadCloser,
        openBZ2 env (fuel + 1) filename w = .returned (some g) none (w1 ++ [Event.newReader .bzip2])
        ∧ g.ReadAll = decodedReads env .bzip2 f.toReader
        ∧ ∀ w3 : World, g.Close w3
            = (((f.Close w3).1).map (fun e => ErrorValue.join [e]), (f.Close w3).2))
    ∧ (∀ (fd : Nat) (w2 : World), f = osFile env fd →
        f.Close w2 = (env.fileCloseErr fd w2, w2 ++ [Event.fileClose fd])) := by
  have hj : ∀ x : Err, errors_Join [x] = x.map (fun e => ErrorValue.join [e]) := by
    intro x
    cases x <;> simp [errors_Join]
  refine ⟨?_, ?_, ?_, ?_, ?_⟩
  · intro h
    refine ⟨readerCloser.toReadCloser
      { Reader := { ReadAll := decodedReads env .zstd f.toReader }
        closers := some [fun w4 => (none, w4 ++ [Event.decoderClose .zstd]), f.Close] }, ?_, rfl, ?_⟩
    · rw [openZSTD, hopen]
      simp only [zstd_NewReader, h]
    · intro w3
      rw [← hj]
      have hc := Close_eq_callEachOnce (decodedReads env .zstd f.toReader |> Reader.mk)
        [fun w4 => (none, w4 ++ [Event.decoderClose .zstd]), f.Close] w3
      have hn : ∀ x : Err, errors_Join [none, x] = errors_Join [x] := by
        intro x
        cases x <;> simp [errors_Join]
      simp only [callEachOnce] at hc
      rw [hn] at hc
      exact hc
  · intro h
    refine ⟨readerCloser.toReadCloser
      { Reader := { ReadAll := decodedReads env .xz f.toReader }
        closers := some [f.Close] }, ?_, rfl, ?_⟩
    · rw [openXZ, hopen]
      simp only [xz_NewReader, h]
    · intro w3
      rw [← hj]
      exact Close_eq_callEachOnce { ReadAll := decodedReads env .xz f.toReader }
        [f.Close] w3
  · intro h
    refine ⟨readerCloser.toReadCloser
      { Reader := { ReadAll := decodedReads env .gzip f.toReader }
        closers := some [fun w4 => (env.gzipCloseErr w4, w4 ++ [Event.decoderClose .gzip]),
          f.Close] }, ?_, rfl, ?_⟩
    · rw [openGZ, hopen]
      simp only [gzip_NewReader, h]
    · intro w3
      exact Close_eq_callEachOnce { ReadAll := decodedReads env .gzip f.toReader }
        [fun w4 => (env.gzipCloseErr w4, w4 ++ [Event.decoderClose .gzip]), f.Close] w3
  · refine ⟨readerCloser.toReadCloser
      { Reader := { ReadAll := decodedReads env .bzip2 f.toReader }
        closers := some [f.Close] }, ?_, rfl, ?_⟩
    · rw [openBZ2, hopen]
      simp only [bzip2_NewReader]
    · intro w3
      rw [← hj]
      exact Close_eq_callEachOnce { ReadAll := decodedReads env .bzip2 f.toReader }
        [f.Close] w3
  · intro fd w2 hf
    subst hf
    rfl

/-- C8, amended, at `data.gz` in the world where closes fail: the stream `openGZ` builds
closes the gzip reader and then the file, once each, and reports both failures. -/
theorem helper_streams_read_and_close_witness :
    ∃ g : ReadCloser,
      openGZ failingCloseEnv 2 "data.gz" []
        = .returned (some g) none [Event.osOpen "data.gz", Event.newReader .gzip]
      ∧ g.ReadAll [Event.osOpen "data.gz", Event.newReader .gzip] = .ok plaintext
      ∧ g.Close [Event.osOpen "data.gz", Event.newReader .gzip]
          = (some (ErrorValue.join [.ext "gzip: close failed", .ext "close failed"]),
             [Event.osOpen "data.gz", Event.newReader .gzip, Event.decoderClose .gzip,
              Event.fileClose 6]) := by
  obtain ⟨g, h1, h2, h3⟩ :=
    (helper_streams_read_and_close failingCloseEnv 1 "data.gz" [] [Event.osOpen "data.gz"]
      (osFile failingCloseEnv 6)
      ((Open_eq_os_Open failingCloseEnv 0 "data.gz" [] (by decide)).trans rfl)).2.2.1 rfl
  refine ⟨g, h1, ?_, ?_⟩
  · rw [h2]; rfl
  · rw [h3]; rfl

/-- C9: `openBZ2` returns an error exactly when its call to `Open` does, which for an
identifier other than `"-"` is exactly when `os.Open` fails; once the raw stream `f` is
there, whatever its content, a stream reading through the bzip2 decoder is returned and
nothing but the decoder's construction has happened. -/
theorem openBZ2_fails_iff_open_fails (env : Env) (fuel : Nat) (filename : String)
    (w : World) :
    ((∃ (s : Option ReadCloser) (e : ErrorValue) (w1 : World),
        openBZ2 env (fuel + 2) filename w = .returned s (some e) w1)
      ↔ ∃ (s : Option ReadCloser) (e : ErrorValue) (w1 : World),
        Open env (fuel + 1) filename w = .returned s (some e) w1)
    ∧ (filename ≠ "-" →
        ((∃ (s : Option ReadCloser) (e : ErrorValue) (w1 : World),
            openBZ2 env (fuel + 2) filename w = .returned s (some e) w1)
          ↔ ∃ e : ErrorValue, env.openFile filename w = .error e))
    ∧ (∀ (f : ReadCloser) (w1 : World),
        Open env (fuel + 1) filename w = .returned (some f) none w1 →
        ∃ g : ReadCloser,
          openBZ2 env (fuel + 2) filename w = .returned (some g) none (w1 ++ [Event.newReader .bzip2])
          ∧ g.ReadAll = decodedReads env .bzip2 f.toReader) := by
  have h1 : (∃ (s : Option ReadCloser) (e : ErrorValue) (w1 : World),
        openBZ2 env (fuel + 2) filename w = .returned s (some e) w1)
      ↔ ∃ (s : Option ReadCloser) (e : ErrorValue) (w1 : World),
        Open env (fuel + 1) filename w = .returned s (some e) w1 := by
    obtain ⟨f0, err, w0, hr⟩ := Open_total env filename w
    rw [openBZ2, hr fuel]
    cases err with
    | some e0 => simp
    | none => simp [bzip2_NewReader]
  refine ⟨h1, ?_, ?_⟩
  · intro hdash
    rw [h1, Open_eq_os_Open env fuel filename w hdash]
    cases hf : env.openFile filename w with
    | error e0 => simp [returnOsOpen_error env filename w e0 hf]
    | ok fd => simp [returnOsOpen_ok env filename w fd hf]
  · intro f w1 hopen
    refine ⟨readerCloser.toReadCloser
      { Reader := { ReadAll := decodedReads env .bzip2 f.toReader }
        closers := some [f.Close] }, ?_, rfl⟩
    rw [openBZ2, hopen]
    simp only [bzip2_NewReader]

/-- C9 at `notes.gz`, whose content is not bzip2 data (nor gzip): `openBZ2` still returns
a stream, and only reading it reports the corrupt input. -/
theorem openBZ2_fails_iff_open_fails_witness :
    ∃ g : ReadCloser,
      openBZ2 sampleEnv 2 "notes.gz" []
        = .returned (some g) none [Event.osOpen "notes.gz", Event.newReader .bzip2]
      ∧ g.ReadAll [Event.osOpen "notes.gz", Event.newReader .bzip2]
          = .error (.ext "corrupt input") := by
  obtain ⟨g, h1, h2⟩ :=
    (openBZ2_fails_iff_open_fails sampleEnv 0 "notes.gz" []).2.2 (osFile sampleEnv 8)
      [Event.osOpen "notes.gz"]
      ((Open_eq_os_Open sampleEnv 0 "notes.gz" [] (by decide)).trans rfl)
  refine ⟨g, h1, ?_⟩
  rw [h2]; rfl

end Xopen
